import Mathlib

/-!
A verification development for the CPU-and-bus execution core of a
multi-system retro console emulator, shallowly embedding:

* the Motorola 68000 decode/execute engine (`m68000-emu/src/core.rs`), and
* the NES cartridge loader (`jgnes-core/src/bus/cartridge.rs`).

Machine integers (`u8`/`u16`/`u32` in the source) are embedded as `Nat`
with explicit masking: `x & (2^k - 1)` is written `x &&& mask` or `x % 2^k`
(equal on `Nat`), and wrapping arithmetic is taken modulo `2^32`.
Rust functions that can `panic!` are embedded returning `Except String`,
carrying the panic message. Fallible file loading returns `Except` over the
source's error enumeration.
-/

namespace M68k

/-- `2^32`, the wrap-around modulus of 32-bit machine arithmetic. -/
def two32 : Nat := 4294967296

/-- Wrapping 32-bit addition (`u32::wrapping_add`). -/
def wadd (a b : Nat) : Nat := (a + b) % two32

/-- Wrapping 32-bit subtraction (`u32::wrapping_sub`) for a subtrahend of at
most `2^32`. -/
def wsub (a b : Nat) : Nat := (a + (two32 - b % two32)) % two32

/-- `value as i16 as u32`: sign extension of the low 16 bits to 32 bits. -/
def i16_as_u32 (v : Nat) : Nat :=
  if v % 65536 < 32768 then v % 65536 else v % 65536 + 0xFFFF0000

/-- `extension as i16`: the low 16 bits of a word read as a signed integer. -/
def asI16 (v : Nat) : Int :=
  if v % 65536 < 32768 then (v % 65536 : Int) else (v % 65536 : Int) - 65536

/-- `extension as i8`: the low 8 bits of a word read as a signed integer. -/
def asI8 (v : Nat) : Int :=
  if v % 256 < 128 then (v % 256 : Int) else (v % 256 : Int) - 256

/-- `displacement as u32`: two's-complement cast of a signed value to `u32`. -/
def intAsU32 (i : Int) : Nat := (i % (two32 : Int)).toNat

/-- The 68000 condition-code register: `struct ConditionCodes`. -/
structure ConditionCodes where
  carry : Bool
  overflow : Bool
  zero : Bool
  negative : Bool
  extend : Bool
deriving Repr, DecidableEq

/-- `impl From<u8> for ConditionCodes`: bits 0..4 are C, V, Z, N, X. -/
def ConditionCodes.fromU8 (value : Nat) : ConditionCodes :=
  { carry := value.testBit 0
    overflow := value.testBit 1
    zero := value.testBit 2
    negative := value.testBit 3
    extend := value.testBit 4 }

/-- `impl From<ConditionCodes> for u8`. -/
def ConditionCodes.toU8 (value : ConditionCodes) : Nat :=
  (value.extend.toNat <<< 4)
    ||| (value.negative.toNat <<< 3)
    ||| (value.zero.toNat <<< 2)
    ||| (value.overflow.toNat <<< 1)
    ||| value.carry.toNat

/-- The 68000 register file: `struct Registers`. -/
structure Registers where
  data : Fin 8 → Nat
  address : Fin 7 → Nat
  usp : Nat
  ssp : Nat
  pc : Nat
  ccr : ConditionCodes
  interrupt_priority_mask : Nat
  supervisor_mode : Bool
  trace_enabled : Bool

/-- `Registers::new`. -/
def Registers.new : Registers :=
  { data := fun _ => 0
    address := fun _ => 0
    usp := 0
    ssp := 0
    pc := 0
    ccr := ConditionCodes.fromU8 0
    interrupt_priority_mask := 0
    supervisor_mode := true
    trace_enabled := false }

/-- `Registers::status_register`: `u16::from_be_bytes([msb, lsb])` with
`msb = ipm | (supervisor << 5) | (trace << 7)` and `lsb` the CCR byte. -/
def Registers.status_register (r : Registers) : Nat :=
  let lsb := r.ccr.toU8
  let msb := r.interrupt_priority_mask
    ||| (r.supervisor_mode.toNat <<< 5)
    ||| (r.trace_enabled.toNat <<< 7)
  (msb <<< 8) ||| lsb

/-- `Registers::set_status_register`: split into big-endian bytes, take the
interrupt mask from `msb & 0x07`, supervisor from bit 5, trace from bit 7,
and the CCR from the low byte. -/
def Registers.set_status_register (r : Registers) (value : Nat) : Registers :=
  let msb := (value >>> 8) % 256
  let lsb := value % 256
  { r with
    interrupt_priority_mask := msb &&& 0x07
    supervisor_mode := msb.testBit 5
    trace_enabled := msb.testBit 7
    ccr := ConditionCodes.fromU8 lsb }

/-- `struct DataRegister(u8)`; the register number is always masked to three
bits before construction, so it is carried as `Fin 8`. -/
structure DataRegister where
  val : Fin 8
deriving Repr, DecidableEq

/-- `DataRegister::read_from`. -/
def DataRegister.read_from (d : DataRegister) (r : Registers) : Nat :=
  r.data d.val

/-- `DataRegister::write_byte_to`: `(existing & 0xFFFF_FF00) | u32::from(value)`. -/
def DataRegister.write_byte_to (d : DataRegister) (r : Registers) (value : Nat) :
    Registers :=
  { r with data :=
      Function.update r.data d.val ((r.data d.val &&& 0xFFFFFF00) ||| value % 256) }

/-- `DataRegister::write_word_to`: `(existing & 0xFFFF_0000) | u32::from(value)`. -/
def DataRegister.write_word_to (d : DataRegister) (r : Registers) (value : Nat) :
    Registers :=
  { r with data :=
      Function.update r.data d.val ((r.data d.val &&& 0xFFFF0000) ||| value % 65536) }

/-- `DataRegister::write_long_word_to`. -/
def DataRegister.write_long_word_to (d : DataRegister) (r : Registers)
    (value : Nat) : Registers :=
  { r with data := Function.update r.data d.val (value % two32) }

/-- `struct AddressRegister(u8)`. -/
structure AddressRegister where
  val : Fin 8
deriving Repr, DecidableEq

/-- `AddressRegister::is_stack_pointer`. -/
def AddressRegister.is_stack_pointer (a : AddressRegister) : Bool :=
  a.val = (7 : Fin 8)

/-- `AddressRegister::read_from`: register 7 routes to USP or SSP depending
on supervisor mode. -/
def AddressRegister.read_from (a : AddressRegister) (r : Registers) : Nat :=
  if h : a.val.val = 7 then
    if r.supervisor_mode then r.ssp else r.usp
  else
    r.address ⟨a.val.val, by omega⟩

/-- `AddressRegister::write_long_word_to`: register 7 routes to USP or SSP
depending on supervisor mode. -/
def AddressRegister.write_long_word_to (a : AddressRegister) (r : Registers)
    (value : Nat) : Registers :=
  if h : a.val.val = 7 then
    if r.supervisor_mode then { r with ssp := value % two32 }
    else { r with usp := value % two32 }
  else
    { r with address := Function.update r.address ⟨a.val.val, by omega⟩ (value % two32) }

/-- `AddressRegister::write_word_to`: address register writes are always sign
extended to 32 bits (`value as i16 as u32`). -/
def AddressRegister.write_word_to (a : AddressRegister) (r : Registers)
    (value : Nat) : Registers :=
  a.write_long_word_to r (i16_as_u32 value)

/-- `AddressRegister::write_byte_to` panics: writing a byte to an address
register is not supported. -/
def AddressRegister.write_byte_to (_a : AddressRegister) (_r : Registers)
    (_value : Nat) : Except String Registers :=
  .error "Writing a byte to an address register is not supported"

/-- `enum OpSize`. -/
inductive OpSize where
  | Byte
  | Word
  | LongWord
deriving Repr, DecidableEq

/-- `enum SizedValue`; the payload is the held machine integer. -/
inductive SizedValue where
  | Byte (value : Nat)
  | Word (value : Nat)
  | LongWord (value : Nat)
deriving Repr, DecidableEq

/-- The operand size a `SizedValue` carries. -/
def SizedValue.sizeOf : SizedValue → OpSize
  | .Byte _ => .Byte
  | .Word _ => .Word
  | .LongWord _ => .LongWord

/-- `SizedValue::is_zero`. -/
def SizedValue.is_zero : SizedValue → Bool
  | .Byte v => v % 256 = 0
  | .Word v => v % 65536 = 0
  | .LongWord v => v % two32 = 0

/-- `SignBit for SizedValue`: the high bit of the held width. -/
def SizedValue.sign_bit : SizedValue → Bool
  | .Byte v => v.testBit 7
  | .Word v => v.testBit 15
  | .LongWord v => v.testBit 31

/-- A single access through the 68000 bus capability, as seen by the
`BusInterface` trait: one entry per trait-method call. -/
inductive BusAccess where
  | readByte (addr : Nat)
  | readWord (addr : Nat)
  | readLong (addr : Nat)
  | writeByte (addr value : Nat)
  | writeWord (addr value : Nat)
  | writeLong (addr value : Nat)
deriving Repr, DecidableEq

/-- Modelled from the spec: the `BusInterface` trait implementation lives
outside the extracted sources. The bus is a byte memory addressed by a
32-bit address; word and long-word accesses are big-endian compositions of
consecutive bytes (spec §4.1). `log` records each trait-method call, most
recent first, so that the observable access sequence can be stated. -/
structure Bus where
  mem : Nat → Nat
  log : List BusAccess

/-- The byte stored at a 32-bit address. -/
def Bus.byteAt (b : Bus) (addr : Nat) : Nat := b.mem (addr % two32) % 256

/-- The big-endian word value at an address (spec §4.1). -/
def Bus.wordAt (b : Bus) (addr : Nat) : Nat :=
  b.byteAt addr * 256 + b.byteAt (wadd addr 1)

/-- The big-endian long-word value at an address (spec §4.1). -/
def Bus.longAt (b : Bus) (addr : Nat) : Nat :=
  b.wordAt addr * 65536 + b.wordAt (wadd addr 2)

/-- Modelled from the spec: `bus.read_memory(addr)`, a byte read. -/
def Bus.read_memory (b : Bus) (addr : Nat) : Nat × Bus :=
  (b.byteAt addr, { b with log := .readByte addr :: b.log })

/-- Modelled from the spec: `bus.read_word(addr)`, a big-endian word read. -/
def Bus.read_word (b : Bus) (addr : Nat) : Nat × Bus :=
  (b.wordAt addr, { b with log := .readWord addr :: b.log })

/-- Modelled from the spec: `bus.read_long_word(addr)`. -/
def Bus.read_long_word (b : Bus) (addr : Nat) : Nat × Bus :=
  (b.longAt addr, { b with log := .readLong addr :: b.log })

/-- Store one byte at a 32-bit address. -/
def Bus.setByte (b : Bus) (addr value : Nat) : Bus :=
  { b with mem := fun x => if x = addr % two32 then value % 256 else b.mem x }

/-- Modelled from the spec: `bus.write_memory(addr, value)`, a byte write. -/
def Bus.write_memory (b : Bus) (addr value : Nat) : Bus :=
  { b.setByte addr value with log := .writeByte addr value :: b.log }

/-- Modelled from the spec: `bus.write_word(addr, value)`, big-endian. -/
def Bus.write_word (b : Bus) (addr value : Nat) : Bus :=
  { (b.setByte addr ((value >>> 8) % 256)).setByte (wadd addr 1) (value % 256) with
    log := .writeWord addr value :: b.log }

/-- Modelled from the spec: `bus.write_long_word(addr, value)`, big-endian. -/
def Bus.write_long_word (b : Bus) (addr value : Nat) : Bus :=
  { ((((b.setByte addr ((value >>> 24) % 256)).setByte
      (wadd addr 1) ((value >>> 16) % 256)).setByte
      (wadd addr 2) ((value >>> 8) % 256)).setByte
      (wadd addr 3) (value % 256)) with
    log := .writeLong addr value :: b.log }

/-- `impl IncrementStep for u8`: byte operands step A7 by 2, others by 1. -/
def increment_step_byte (r : AddressRegister) : Nat :=
  if r.is_stack_pointer then 2 else 1

/-- `impl IncrementStep for u16`. -/
def increment_step_word (_r : AddressRegister) : Nat := 2

/-- `impl IncrementStep for u32`. -/
def increment_step_long (_r : AddressRegister) : Nat := 4

/-- The increment step for a given operand size, dispatching to the three
width instances of the `IncrementStep` trait. -/
def increment_step_for (size : OpSize) (r : AddressRegister) : Nat :=
  match size with
  | .Byte => increment_step_byte r
  | .Word => increment_step_word r
  | .LongWord => increment_step_long r

/-- `enum IndexSize`. -/
inductive IndexSize where
  | SignExtendedWord
  | LongWord
deriving Repr, DecidableEq

/-- `enum IndexRegister`. -/
inductive IndexRegister where
  | Data (register : DataRegister)
  | Address (register : AddressRegister)
deriving Repr, DecidableEq

/-- `IndexRegister::read_from`: `SignExtendedWord` sign-extends the low 16
bits (`raw_value as i16 as u32`); `LongWord` uses all 32 bits. -/
def IndexRegister.read_from (i : IndexRegister) (r : Registers)
    (size : IndexSize) : Nat :=
  let raw_value := match i with
    | .Data register => register.read_from r
    | .Address register => register.read_from r
  match size with
  | .SignExtendedWord => i16_as_u32 raw_value
  | .LongWord => raw_value

/-- `enum AddressingMode`. -/
inductive AddressingMode where
  | DataDirect (register : DataRegister)
  | AddressDirect (register : AddressRegister)
  | AddressIndirect (register : AddressRegister)
  | AddressIndirectPostincrement (register : AddressRegister)
  | AddressIndirectPredecrement (register : AddressRegister)
  | AddressIndirectDisplacement (register : AddressRegister) (displacement : Int)
  | AddressIndirectIndexed (register : AddressRegister) (index : IndexRegister)
      (size : IndexSize) (displacement : Int)
  | PcRelativeDisplacement (pc : Nat) (displacement : Int)
  | PcRelativeIndexed (pc : Nat) (index : IndexRegister) (size : IndexSize)
      (displacement : Int)
  | AbsoluteShort (address : Int)
  | AbsoluteLong (address : Nat)
  | Immediate (data : Nat)
deriving Repr, DecidableEq

/-- `fn parse_index`: bit 15 of the extension word selects an address or
data index register, bits 14..12 its number, bit 11 the index size. -/
def parse_index (extension : Nat) : IndexRegister × IndexSize :=
  let index_register_number : Fin 8 :=
    ⟨(extension >>> 12) % 8, Nat.mod_lt _ (by norm_num)⟩
  let index_register := if extension.testBit 15 then
      IndexRegister.Address ⟨index_register_number⟩
    else
      IndexRegister.Data ⟨index_register_number⟩
  let index_size := if extension.testBit 11 then
      IndexSize.LongWord
    else
      IndexSize.SignExtendedWord
  (index_register, index_size)

/-- One width instance of `impl_addressing_read_method!`: the body is shared
by the three generated methods, parameterized by the width's truncation
(`as $t`), the bus read method and the increment step. -/
def AddressingMode.read_with (m : AddressingMode) (r : Registers) (bus : Bus)
    (trunc : Nat → Nat) (bus_read : Bus → Nat → Nat × Bus)
    (step : AddressRegister → Nat) : Nat × Registers × Bus :=
  match m with
  | .DataDirect register => (trunc (register.read_from r), r, bus)
  | .AddressDirect register => (trunc (register.read_from r), r, bus)
  | .AddressIndirect register =>
    let address := register.read_from r
    let (value, bus') := bus_read bus address
    (value, r, bus')
  | .AddressIndirectPostincrement register =>
    let increment_step := step register
    let address := register.read_from r
    let r' := register.write_long_word_to r (wadd address increment_step)
    let (value, bus') := bus_read bus address
    (value, r', bus')
  | .AddressIndirectPredecrement register =>
    let increment_step := step register
    let address := wsub (register.read_from r) increment_step
    let r' := register.write_long_word_to r address
    let (value, bus') := bus_read bus address
    (value, r', bus')
  | .AddressIndirectDisplacement register displacement =>
    let address := wadd (register.read_from r) (intAsU32 displacement)
    let (value, bus') := bus_read bus address
    (value, r, bus')
  | .AddressIndirectIndexed a_register index_register index_size displacement =>
    let index := index_register.read_from r index_size
    let address := wadd (wadd (a_register.read_from r) index) (intAsU32 displacement)
    let (value, bus') := bus_read bus address
    (value, r, bus')
  | .PcRelativeDisplacement pc displacement =>
    let address := wadd pc (intAsU32 displacement)
    let (value, bus') := bus_read bus address
    (value, r, bus')
  | .PcRelativeIndexed pc index_register index_size displacement =>
    let index := index_register.read_from r index_size
    let address := wadd (wadd pc index) (intAsU32 displacement)
    let (value, bus') := bus_read bus address
    (value, r, bus')
  | .AbsoluteShort address =>
    let (value, bus') := bus_read bus (intAsU32 address)
    (value, r, bus')
  | .AbsoluteLong address =>
    let (value, bus') := bus_read bus address
    (value, r, bus')
  | .Immediate data => (trunc data, r, bus)

/-- `read_byte_from` as generated by `impl_addressing_read_method!`. -/
def AddressingMode.read_byte_from (m : AddressingMode) (r : Registers)
    (bus : Bus) : Nat × Registers × Bus :=
  m.read_with r bus (· % 256) Bus.read_memory increment_step_byte

/-- `read_word_from` as generated by `impl_addressing_read_method!`. -/
def AddressingMode.read_word_from (m : AddressingMode) (r : Registers)
    (bus : Bus) : Nat × Registers × Bus :=
  m.read_with r bus (· % 65536) Bus.read_word increment_step_word

/-- `read_long_word_from` as generated by `impl_addressing_read_method!`. -/
def AddressingMode.read_long_word_from (m : AddressingMode) (r : Registers)
    (bus : Bus) : Nat × Registers × Bus :=
  m.read_with r bus (· % two32) Bus.read_long_word increment_step_long

/-- `AddressingMode::read_from`, dispatching on the operand size. -/
def AddressingMode.read_from (m : AddressingMode) (r : Registers) (bus : Bus)
    (size : OpSize) : SizedValue × Registers × Bus :=
  match size with
  | .Byte =>
    let (value, r', bus') := m.read_byte_from r bus
    (.Byte value, r', bus')
  | .Word =>
    let (value, r', bus') := m.read_word_from r bus
    (.Word value, r', bus')
  | .LongWord =>
    let (value, r', bus') := m.read_long_word_from r bus
    (.LongWord value, r', bus')

/-- One width instance of `impl_addressing_write_method!`, parameterized by
the bus write method, the register write method and the increment step.
Writes to a PC-relative or immediate destination panic. -/
def AddressingMode.write_with (m : AddressingMode) (r : Registers) (bus : Bus)
    (value : Nat) (bus_write : Bus → Nat → Nat → Bus)
    (reg_write : DataRegister → Registers → Nat → Registers)
    (a_reg_write : AddressRegister → Registers → Nat → Except String Registers)
    (step : AddressRegister → Nat) : Except String (Registers × Bus) :=
  match m with
  | .DataDirect register => .ok (reg_write register r value, bus)
  | .AddressDirect register => do
    let r' ← a_reg_write register r value
    .ok (r', bus)
  | .AddressIndirect register =>
    let address := register.read_from r
    .ok (r, bus_write bus address value)
  | .AddressIndirectPostincrement register =>
    let increment_step := step register
    let address := register.read_from r
    let r' := register.write_long_word_to r (wadd address increment_step)
    .ok (r', bus_write bus address value)
  | .AddressIndirectPredecrement register =>
    let increment_step := step register
    let address := wsub (register.read_from r) increment_step
    let r' := register.write_long_word_to r address
    .ok (r', bus_write bus address value)
  | .AddressIndirectDisplacement register displacement =>
    let address := wadd (register.read_from r) (intAsU32 displacement)
    .ok (r, bus_write bus address value)
  | .AddressIndirectIndexed a_register index_register index_size displacement =>
    let index := index_register.read_from r index_size
    let address := wadd (wadd (a_register.read_from r) index) (intAsU32 displacement)
    .ok (r, bus_write bus address value)
  | .AbsoluteShort address => .ok (r, bus_write bus (intAsU32 address) value)
  | .AbsoluteLong address => .ok (r, bus_write bus address value)
  | .PcRelativeDisplacement _ _ => .error "writes not supported with addressing mode"
  | .PcRelativeIndexed _ _ _ _ => .error "writes not supported with addressing mode"
  | .Immediate _ => .error "writes not supported with addressing mode"

/-- `write_byte_to` as generated by `impl_addressing_write_method!`; an
`AddressDirect` destination panics in `AddressRegister::write_byte_to`. -/
def AddressingMode.write_byte_to (m : AddressingMode) (r : Registers)
    (bus : Bus) (value : Nat) : Except String (Registers × Bus) :=
  m.write_with r bus value Bus.write_memory DataRegister.write_byte_to
    AddressRegister.write_byte_to increment_step_byte

/-- `write_word_to` as generated by `impl_addressing_write_method!`. -/
def AddressingMode.write_word_to (m : AddressingMode) (r : Registers)
    (bus : Bus) (value : Nat) : Except String (Registers × Bus) :=
  m.write_with r bus value Bus.write_word DataRegister.write_word_to
    (fun a r' v => .ok (a.write_word_to r' v)) increment_step_word

/-- `write_long_word_to` as generated by `impl_addressing_write_method!`. -/
def AddressingMode.write_long_word_to (m : AddressingMode) (r : Registers)
    (bus : Bus) (value : Nat) : Except String (Registers × Bus) :=
  m.write_with r bus value Bus.write_long_word DataRegister.write_long_word_to
    (fun a r' v => .ok (a.write_long_word_to r' v)) increment_step_long

/-- `AddressingMode::write_to`, dispatching on the value's size. -/
def AddressingMode.write_to (m : AddressingMode) (r : Registers) (bus : Bus)
    (value : SizedValue) : Except String (Registers × Bus) :=
  match value with
  | .Byte v => m.write_byte_to r bus v
  | .Word v => m.write_word_to r bus v
  | .LongWord v => m.write_long_word_to r bus v

/-- `AddressingMode::is_address_direct`. -/
def AddressingMode.is_address_direct : AddressingMode → Bool
  | .AddressDirect _ => true
  | _ => false

/-- `AddressingMode::is_writable`: everything except the PC-relative modes
and immediate. -/
def AddressingMode.is_writable : AddressingMode → Bool
  | .PcRelativeDisplacement _ _ => false
  | .PcRelativeIndexed _ _ _ _ => false
  | .Immediate _ => false
  | _ => true

/-- `enum Instruction`. -/
inductive Instruction where
  | Move (size : OpSize) (source : AddressingMode) (dest : AddressingMode)
  | Illegal
deriving Repr, DecidableEq

namespace InstructionExecutor

/-- `InstructionExecutor::fetch_operand`: read the word at PC and advance PC
by 2 (wrapping). -/
def fetch_operand (r : Registers) (bus : Bus) : Nat × Registers × Bus :=
  let (operand, bus') := bus.read_word r.pc
  (operand, { r with pc := wadd r.pc 2 }, bus')

/-- `InstructionExecutor::fetch_addressing_mode`, matching on
`(mode & 0x07, register & 0x07)`; on `Nat`, `x & 0x07` equals `x % 8`.
Raw mode `0x07` with register `0x05..=0x07` is reserved and yields `none`. -/
def fetch_addressing_mode (mode register : Nat) (size : OpSize)
    (r : Registers) (bus : Bus) : Option AddressingMode × Registers × Bus :=
  let m := mode % 8
  let reg := register % 8
  let regF : Fin 8 := ⟨reg, Nat.mod_lt _ (by norm_num)⟩
  if m = 0 then (some (.DataDirect ⟨regF⟩), r, bus)
  else if m = 1 then (some (.AddressDirect ⟨regF⟩), r, bus)
  else if m = 2 then (some (.AddressIndirect ⟨regF⟩), r, bus)
  else if m = 3 then (some (.AddressIndirectPostincrement ⟨regF⟩), r, bus)
  else if m = 4 then (some (.AddressIndirectPredecrement ⟨regF⟩), r, bus)
  else if m = 5 then
    let (extension, r', bus') := fetch_operand r bus
    let displacement := asI16 extension
    (some (.AddressIndirectDisplacement ⟨regF⟩ displacement), r', bus')
  else if m = 6 then
    let (extension, r', bus') := fetch_operand r bus
    let (index_register, index_size) := parse_index extension
    let displacement := asI8 extension
    (some (.AddressIndirectIndexed ⟨regF⟩ index_register index_size displacement),
      r', bus')
  else
    if reg = 0 then
      let (extension, r', bus') := fetch_operand r bus
      (some (.AbsoluteShort (asI16 extension)), r', bus')
    else if reg = 1 then
      let (extension_0, r1, bus1) := fetch_operand r bus
      let (extension_1, r2, bus2) := fetch_operand r1 bus1
      let address := (extension_0 <<< 16) ||| extension_1
      (some (.AbsoluteLong address), r2, bus2)
    else if reg = 2 then
      let pc := r.pc
      let (extension, r', bus') := fetch_operand r bus
      let displacement := asI16 extension
      (some (.PcRelativeDisplacement pc displacement), r', bus')
    else if reg = 3 then
      let pc := r.pc
      let (extension, r', bus') := fetch_operand r bus
      let (index_register, index_size) := parse_index extension
      let displacement := asI8 extension
      (some (.PcRelativeIndexed pc index_register index_size displacement), r', bus')
    else if reg = 4 then
      let (extension_0, r', bus') := fetch_operand r bus
      match size with
      | .Byte => (some (.Immediate (extension_0 % 256)), r', bus')
      | .Word => (some (.Immediate extension_0), r', bus')
      | .LongWord =>
        let (extension_1, r2, bus2) := fetch_operand r' bus'
        (some (.Immediate ((extension_0 <<< 16) ||| extension_1)), r2, bus2)
    else
      (none, r, bus)

/-- `InstructionExecutor::fetch_addressing_mode_from_opcode`: source mode in
opcode bits 5..3, source register in bits 2..0. -/
def fetch_addressing_mode_from_opcode (opcode : Nat) (size : OpSize)
    (r : Registers) (bus : Bus) : Option AddressingMode × Registers × Bus :=
  fetch_addressing_mode ((opcode >>> 3) % 8) (opcode % 8) size r bus

/-- `InstructionExecutor::decode_instruction`: fetch the opcode word and
decode by the top nibble; `0x1`/`0x2`/`0x3` is the MOVE / MOVEA family with
size byte/long/word, everything else is `Illegal`. A MOVE whose destination
is non-writable, or address-direct with byte size, is `Illegal`. -/
def decode_instruction (r : Registers) (bus : Bus) :
    Instruction × Registers × Bus :=
  let (opcode, r1, bus1) := fetch_operand r bus
  let family := opcode &&& 0xF000
  if family = 0x1000 ∨ family = 0x2000 ∨ family = 0x3000 then
    let size := if family = 0x1000 then OpSize.Byte
      else if family = 0x3000 then OpSize.Word
      else OpSize.LongWord
    match fetch_addressing_mode_from_opcode opcode size r1 bus1 with
    | (none, r2, bus2) => (.Illegal, r2, bus2)
    | (some source, r2, bus2) =>
      let dest_mode := (opcode >>> 6) % 8
      let dest_register := (opcode >>> 9) % 8
      match fetch_addressing_mode dest_mode dest_register size r2 bus2 with
      | (none, r3, bus3) => (.Illegal, r3, bus3)
      | (some dest, r3, bus3) =>
        if dest.is_writable = false
            ∨ (dest.is_address_direct = true ∧ size = OpSize.Byte) then
          (.Illegal, r3, bus3)
        else
          (.Move size source dest, r3, bus3)
  else
    (.Illegal, r1, bus1)

/-- Modelled from the spec: `InstructionExecutor::mov` lives in `mod load`,
which is not in the extracted sources. Per spec §4.3 MOVE specifics: read
the source, set N and Z from the result, clear V and C, leave X unchanged,
and write the result to the destination. -/
def mov (size : OpSize) (source dest : AddressingMode) (r : Registers)
    (bus : Bus) : Except String (Registers × Bus) :=
  let (value, r1, bus1) := source.read_from r bus size
  let r2 := { r1 with ccr :=
    { carry := false
      overflow := false
      zero := value.is_zero
      negative := value.sign_bit
      extend := r1.ccr.extend } }
  dest.write_to r2 bus1 value

/-- `InstructionExecutor::execute_instruction`: executing `Illegal` panics
with "illegal or unimplemented instruction". -/
def execute_instruction (instruction : Instruction) (r : Registers)
    (bus : Bus) : Except String (Registers × Bus) :=
  match instruction with
  | .Move size source dest => mov size source dest r bus
  | .Illegal => .error "illegal or unimplemented instruction"

/-- `InstructionExecutor::execute`: decode one instruction, then execute it. -/
def execute (r : Registers) (bus : Bus) : Except String (Registers × Bus) :=
  let (instruction, r1, bus1) := decode_instruction r bus
  execute_instruction instruction r1 bus1

end InstructionExecutor

/-- `pub struct M68000`. -/
structure M68000 where
  registers : Registers

/-- `M68000::new`. -/
def M68000.new : M68000 := { registers := Registers.new }

/-- `M68000::status_register`. -/
def M68000.status_register (m : M68000) : Nat :=
  m.registers.status_register

/-- `M68000::set_status_register`. -/
def M68000.set_status_register (m : M68000) (status_register : Nat) : M68000 :=
  { m with registers := m.registers.set_status_register status_register }

/-- `M68000::pc`. -/
def M68000.pc (m : M68000) : Nat := m.registers.pc

/-- `M68000::execute_instruction`. -/
def M68000.execute_instruction (m : M68000) (bus : Bus) :
    Except String (M68000 × Bus) := do
  let (r', bus') ← InstructionExecutor.execute m.registers bus
  .ok ({ registers := r' }, bus')

end M68k

namespace Nes

/-- `enum ChrType` (from `mappers.rs`): CHR memory is either ROM or RAM. -/
inductive ChrType where
  | rom
  | ram
deriving Repr, DecidableEq

/-- `enum NametableMirroring` (from `mappers.rs`). -/
inductive NametableMirroring where
  | horizontal
  | vertical
  | singleScreenBank0
  | singleScreenBank1
deriving Repr, DecidableEq

/-- `struct Cartridge`: four byte vectors. -/
structure Cartridge where
  prg_rom : List Nat
  prg_ram : List Nat
  chr_rom : List Nat
  chr_ram : List Nat
deriving Repr, DecidableEq

/-- Modelled from the spec: `Nrom::new` lives in `mappers.rs`, which is not
in the extracted sources; its private state is represented by the
constructor arguments the loader passes. -/
structure Nrom where
  chr_type : ChrType
  nametable_mirroring : NametableMirroring
deriving Repr, DecidableEq

/-- Modelled from the spec: `Uxrom::new` is not in the extracted sources;
represented by its constructor arguments. -/
structure Uxrom where
  chr_type : ChrType
  nametable_mirroring : NametableMirroring
deriving Repr, DecidableEq

/-- Modelled from the spec: `Mmc1::new` is not in the extracted sources;
represented by its constructor argument. -/
structure Mmc1 where
  chr_type : ChrType
deriving Repr, DecidableEq

/-- Modelled from the spec: `Cnrom::new` is not in the extracted sources;
represented by its constructor arguments. -/
structure Cnrom where
  chr_type : ChrType
  nametable_mirroring : NametableMirroring
deriving Repr, DecidableEq

/-- Modelled from the spec: `Mmc3::new` is not in the extracted sources;
represented by its constructor arguments. -/
structure Mmc3 where
  chr_type : ChrType
  prg_rom_size : Nat
  chr_size : Nat
  sub_mapper_number : Nat
deriving Repr, DecidableEq

/-- Modelled from the spec: `Axrom::new` is not in the extracted sources;
represented by its constructor argument. -/
structure Axrom where
  chr_type : ChrType
deriving Repr, DecidableEq

/-- `struct MapperImpl<MapperData>`: the shared cartridge plus the
mapper-private data. -/
structure MapperImpl (MapperData : Type) where
  cartridge : Cartridge
  data : MapperData
deriving Repr, DecidableEq

/-- `enum Mapper`: tagged union over the six supported mappers. -/
inductive Mapper where
  | nrom (m : MapperImpl Nrom)
  | uxrom (m : MapperImpl Uxrom)
  | mmc1 (m : MapperImpl Mmc1)
  | cnrom (m : MapperImpl Cnrom)
  | mmc3 (m : MapperImpl Mmc3)
  | axrom (m : MapperImpl Axrom)
deriving Repr, DecidableEq

/-- `Mapper::name`. -/
def Mapper.name : Mapper → String
  | .nrom _ => "NROM"
  | .uxrom _ => "UxROM"
  | .mmc1 _ => "MMC1"
  | .cnrom _ => "CNROM"
  | .mmc3 _ => "MMC3"
  | .axrom _ => "AxROM"

/-- The shared cartridge carried by any mapper variant. -/
def Mapper.cartridge : Mapper → Cartridge
  | .nrom m => m.cartridge
  | .uxrom m => m.cartridge
  | .mmc1 m => m.cartridge
  | .cnrom m => m.cartridge
  | .mmc3 m => m.cartridge
  | .axrom m => m.cartridge

/-- `enum CartridgeFileError`; the `Io` variant's source error is dropped. -/
inductive CartridgeFileError where
  | io
  | format
  | unsupportedMapper (mapper_number : Nat)
  | multiplePrgRamTypes
deriving Repr, DecidableEq

/-- `enum FileFormat`. -/
inductive FileFormat where
  | iNes
  | nes2Point0
deriving Repr, DecidableEq

/-- `file.read_exact` after seeking to `pos`: `len` bytes starting at byte
offset `pos`, or an I/O error when the file is too short. File contents are
bytes, so each element is masked to 8 bits. -/
def readExact (file : List Nat) (pos len : Nat) : Option (List Nat) :=
  if pos + len ≤ file.length then
    some (((file.drop pos).take len).map (· % 256))
  else
    none

/-- Header byte `i` of a file (masked to 8 bits), as read by
`from_ines_file`. -/
def headerByte (file : List Nat) (i : Nat) : Nat := file.getD i 0 % 256

/-- `16 * 1024 * ((u32::from(header[9] & 0x0F) << 8) | u32::from(header[4]))`. -/
def prgRomSizeOf (file : List Nat) : Nat :=
  16 * 1024 * (((headerByte file 9 &&& 0x0F) <<< 8) ||| headerByte file 4)

/-- `8 * 1024 * ((u32::from(header[9] & 0xF0) << 4) | u32::from(header[5]))`. -/
def chrRomSizeOf (file : List Nat) : Nat :=
  8 * 1024 * (((headerByte file 9 &&& 0xF0) <<< 4) ||| headerByte file 5)

/-- `(header[7] & 0xF0) | ((header[6] & 0xF0) >> 4)`. -/
def mapperNumberOf (file : List Nat) : Nat :=
  (headerByte file 7 &&& 0xF0) ||| ((headerByte file 6 &&& 0xF0) >>> 4)

/-- `header[6] & 0x04 != 0`: a 512-byte trainer sits between header and PRG. -/
def hasTrainerOf (file : List Nat) : Bool :=
  headerByte file 6 &&& 0x04 ≠ 0

/-- The file offset of PRG ROM: 16, plus 512 when a trainer is present. -/
def prgRomStartOf (file : List Nat) : Nat :=
  if hasTrainerOf file then 16 + 512 else 16

/-- `header[7] & 0x0C == 0x08` selects the NES 2.0 format. -/
def fileFormatOf (file : List Nat) : FileFormat :=
  if headerByte file 7 &&& 0x0C = 0x08 then .nes2Point0 else .iNes

/-- `fn from_ines_file`, over the file's byte contents. The file handle is
embedded as the byte list plus explicit offsets; each `read_exact` either
yields bytes or fails with an I/O error. -/
def from_ines_file (file : List Nat) : Except CartridgeFileError Mapper :=
  match readExact file 0 16 with
  | none => .error .io
  | some _header =>
    let prg_rom_size := prgRomSizeOf file
    let chr_rom_size := chrRomSizeOf file
    let mapper_number := mapperNumberOf file
    let prg_rom_start_address := prgRomStartOf file
    match readExact file prg_rom_start_address prg_rom_size with
    | none => .error .io
    | some prg_rom =>
      match readExact file (prg_rom_start_address + prg_rom_size) chr_rom_size with
      | none => .error .io
      | some chr_rom =>
        let chr_type := if chr_rom_size = 0 then ChrType.ram else ChrType.rom
        let nametable_mirroring := if headerByte file 6 &&& 0x01 ≠ 0 then
            NametableMirroring.vertical
          else
            NametableMirroring.horizontal
        let format := fileFormatOf file
        let sub_mapper_number := match format with
          | .nes2Point0 => headerByte file 8 >>> 4
          | .iNes => 0
        let prg_ram_size_res : Except CartridgeFileError Nat := match format with
          | .nes2Point0 =>
            let volatile_shift := headerByte file 10 &&& 0x0F
            let non_volatile_shift := headerByte file 10 >>> 4
            if volatile_shift > 0 ∧ non_volatile_shift > 0 then
              .error .multiplePrgRamTypes
            else
              let shift := max volatile_shift non_volatile_shift
              .ok (if shift > 0 then 64 <<< shift else 0)
          | .iNes => .ok 8192
        match prg_ram_size_res with
        | .error e => .error e
        | .ok prg_ram_size =>
          let chr_ram_size := match chr_type, format with
            | ChrType.ram, .nes2Point0 =>
              let chr_ram_shift := headerByte file 11 &&& 0x0F
              if chr_ram_shift > 0 then 64 <<< chr_ram_shift else 0
            | ChrType.ram, .iNes => 8192
            | ChrType.rom, _ => 0
          let chr_size := match chr_type with
            | ChrType.rom => chr_rom.length
            | ChrType.ram => chr_ram_size
          let cartridge : Cartridge :=
            { prg_rom := prg_rom
              prg_ram := List.replicate prg_ram_size 0
              chr_rom := chr_rom
              chr_ram := List.replicate chr_ram_size 0 }
          if mapper_number = 0 then
            .ok (.nrom ⟨cartridge, ⟨chr_type, nametable_mirroring⟩⟩)
          else if mapper_number = 1 then
            .ok (.mmc1 ⟨cartridge, ⟨chr_type⟩⟩)
          else if mapper_number = 2 then
            .ok (.uxrom ⟨cartridge, ⟨chr_type, nametable_mirroring⟩⟩)
          else if mapper_number = 3 then
            .ok (.cnrom ⟨cartridge, ⟨chr_type, nametable_mirroring⟩⟩)
          else if mapper_number = 4 then
            .ok (.mmc3 ⟨cartridge,
              ⟨chr_type, prg_rom_size, chr_size, sub_mapper_number⟩⟩)
          else if mapper_number = 7 then
            .ok (.axrom ⟨cartridge, ⟨chr_type⟩⟩)
          else
            .error (.unsupportedMapper mapper_number)

/-- `fn from_file`: read the first 8 bytes, validate the 4-byte magic
`"NES\x1A"`, then parse as an iNES file. -/
def from_file (file : List Nat) : Except CartridgeFileError Mapper :=
  match readExact file 0 8 with
  | none => .error .io
  | some buf =>
    if buf.take 4 = [0x4E, 0x45, 0x53, 0x1A] then
      from_ines_file file
    else
      .error .format

end Nes

namespace M68k

/-- The operand size selected by the opcode's top nibble within the
MOVE / MOVEA family: `0x1`→byte, `0x3`→word, `0x2`→long. -/
def sizeForFamily (family : Nat) : OpSize :=
  if family = 0x1000 then OpSize.Byte
  else if family = 0x3000 then OpSize.Word
  else OpSize.LongWord

/-- The addressing mode denoted by a raw `(mode, register)` bit-field pair:
which constructor each three-bit mode (and, for mode 7, register) value maps
to, and that the register number is carried through. -/
def decodesFields (mode register : Nat) : AddressingMode → Prop
  | .DataDirect d => mode % 8 = 0 ∧ (d.val : Nat) = register % 8
  | .AddressDirect a => mode % 8 = 1 ∧ (a.val : Nat) = register % 8
  | .AddressIndirect a => mode % 8 = 2 ∧ (a.val : Nat) = register % 8
  | .AddressIndirectPostincrement a => mode % 8 = 3 ∧ (a.val : Nat) = register % 8
  | .AddressIndirectPredecrement a => mode % 8 = 4 ∧ (a.val : Nat) = register % 8
  | .AddressIndirectDisplacement a _ => mode % 8 = 5 ∧ (a.val : Nat) = register % 8
  | .AddressIndirectIndexed a _ _ _ => mode % 8 = 6 ∧ (a.val : Nat) = register % 8
  | .AbsoluteShort _ => mode % 8 = 7 ∧ register % 8 = 0
  | .AbsoluteLong _ => mode % 8 = 7 ∧ register % 8 = 1
  | .PcRelativeDisplacement _ _ => mode % 8 = 7 ∧ register % 8 = 2
  | .PcRelativeIndexed _ _ _ _ => mode % 8 = 7 ∧ register % 8 = 3
  | .Immediate _ => mode % 8 = 7 ∧ register % 8 = 4

/-- How many 16-bit extension words resolving an addressing mode fetches. -/
def extensionWords (size : OpSize) : AddressingMode → Nat
  | .AddressIndirectDisplacement _ _ => 1
  | .AddressIndirectIndexed _ _ _ _ => 1
  | .AbsoluteShort _ => 1
  | .AbsoluteLong _ => 2
  | .PcRelativeDisplacement _ _ => 1
  | .PcRelativeIndexed _ _ _ _ => 1
  | .Immediate _ => match size with
    | .LongWord => 2
    | _ => 1
  | _ => 0

/-- The bus-trait read call of a given operand size at a given address. -/
def readAccess (size : OpSize) (addr : Nat) : BusAccess :=
  match size with
  | .Byte => .readByte addr
  | .Word => .readWord addr
  | .LongWord => .readLong addr

/-- The bus-trait write call of a sized value at a given address. -/
def writeAccess (value : SizedValue) (addr : Nat) : BusAccess :=
  match value with
  | .Byte v => .writeByte addr v
  | .Word v => .writeWord addr v
  | .LongWord v => .writeLong addr v

/-- The contract of post-increment and pre-decrement addressing for one
register, operand size and sized value: each access (read or write) issues
exactly one bus call, post-increment at the register's original value with
the register left at original plus step, pre-decrement at the decremented
value which is also the register's final value. -/
def postincPredecSpec (size : OpSize) (a : AddressRegister) (r : Registers)
    (bus : Bus) (v : SizedValue) : Prop :=
  (((AddressingMode.AddressIndirectPostincrement a).read_from r bus size).2.2.log
      = readAccess size (a.read_from r) :: bus.log
    ∧ a.read_from
        ((AddressingMode.AddressIndirectPostincrement a).read_from r bus size).2.1
      = (a.read_from r + increment_step_for size a) % two32)
  ∧ (((AddressingMode.AddressIndirectPredecrement a).read_from r bus size).2.2.log
      = readAccess size (wsub (a.read_from r) (increment_step_for size a)) :: bus.log
    ∧ a.read_from
        ((AddressingMode.AddressIndirectPredecrement a).read_from r bus size).2.1
      = wsub (a.read_from r) (increment_step_for size a))
  ∧ (∀ r' bus',
      (AddressingMode.AddressIndirectPostincrement a).write_to r bus v
          = .ok (r', bus') →
        bus'.log = writeAccess v (a.read_from r) :: bus.log
          ∧ a.read_from r' = (a.read_from r + increment_step_for size a) % two32)
  ∧ (∀ r' bus',
      (AddressingMode.AddressIndirectPredecrement a).write_to r bus v
          = .ok (r', bus') →
        bus'.log
            = writeAccess v (wsub (a.read_from r) (increment_step_for size a))
              :: bus.log
          ∧ a.read_from r' = wsub (a.read_from r) (increment_step_for size a))

/-- The claim's sign-extension formula `(i16)v as i32 as u32` for a 16-bit
value, via the integers. -/
def c3Spec (v : Nat) : Nat :=
  (((if v < 32768 then (v : Int) else (v : Int) - 65536)) % 4294967296).toNat

/-- A bus whose memory holds the given 16-bit words big-endian from address
`base`, zero elsewhere, with an empty access log. -/
def busWithWords (base : Nat) (words : List Nat) : Bus :=
  { mem := fun a =>
      if a < base ∨ base + 2 * words.length ≤ a then 0
      else if (a - base) % 2 = 0 then (words.getD ((a - base) / 2) 0) >>> 8 % 256
      else (words.getD ((a - base) / 2) 0) % 256
    log := [] }

/-- Concrete machine for the MOVE-decode claim: opcode
`0b0011_111_000_001_011` (MOVE.w A3, D7) at PC `0x1234`. -/
def c1Regs : Registers := { Registers.new with pc := 0x1234 }

/-- The bus for `c1Regs`: the single opcode word at `0x1234`. -/
def c1Bus : Bus := busWithWords 0x1234 [0x3E0B]

/-- Concrete machine refuting the unrestricted MOVE-decode claim: opcode
`0x1040` (byte-size MOVE with address-direct destination) at PC 0. -/
def c1IllRegs : Registers := Registers.new

/-- The bus for `c1IllRegs`: opcode `0x1040` at address 0. -/
def c1IllBus : Bus := busWithWords 0 [0x1040]

/-- Concrete machine for the illegal-instruction claim: opcode `0x0000`
(an undefined family) at PC 0. -/
def c2Regs : Registers := Registers.new

/-- The bus for `c2Regs`: all memory zero. -/
def c2Bus : Bus := { mem := fun _ => 0, log := [] }

/-- Concrete machine for the non-writable-destination claim: opcode
`0x39C0` (word MOVE with immediate destination fields) at PC 0. -/
def c5Regs : Registers := Registers.new

/-- The bus for `c5Regs`: opcode `0x39C0` at address 0. -/
def c5Bus : Bus := busWithWords 0 [0x39C0]

/-- Concrete registers for the post-increment/pre-decrement witness:
A7 semantics with USP and SSP distinct. -/
def c4Regs : Registers :=
  { Registers.new with usp := 0x500, ssp := 0x900, supervisor_mode := false }

/-- A zero-memory, empty-log bus for the addressing-mode witness. -/
def c4Bus : Bus := { mem := fun _ => 0, log := [] }

end M68k

namespace Nes

/-- Whether a file is long enough for the loader's three `read_exact` calls:
the 16-byte header, the PRG ROM and the CHR ROM. -/
def inesReadsOk (file : List Nat) : Prop :=
  16 ≤ file.length
    ∧ prgRomStartOf file + prgRomSizeOf file + chrRomSizeOf file ≤ file.length

instance (file : List Nat) : Decidable (inesReadsOk file) := by
  unfold inesReadsOk
  infer_instance

/-- The PRG-RAM size the loader allocates when it succeeds: `64 << shift`
for the larger NES 2.0 shift (0 when both are zero), 8192 for iNES. -/
def prgRamExpected (file : List Nat) : Nat :=
  match fileFormatOf file with
  | .nes2Point0 =>
    let shift := max (headerByte file 10 &&& 0x0F) (headerByte file 10 >>> 4)
    if shift > 0 then 64 <<< shift else 0
  | .iNes => 8192

/-- The CHR-RAM size the loader allocates when the header's CHR-ROM size is
zero: `64 << (byte 11 & 0x0F)` (0 when the shift is zero) for NES 2.0,
8192 for iNES. -/
def chrRamExpected (file : List Nat) : Nat :=
  match fileFormatOf file with
  | .nes2Point0 =>
    let shift := headerByte file 11 &&& 0x0F
    if shift > 0 then 64 <<< shift else 0
  | .iNes => 8192

/-- A 16-byte NES 2.0 file declaring both volatile and non-volatile PRG RAM
(header byte 10 = `0x11`), no PRG, no CHR. -/
def c7File : List Nat :=
  [0x4E, 0x45, 0x53, 0x1A, 0, 0, 0, 0x08, 0, 0, 0x11, 0, 0, 0, 0, 0]

/-- A minimal 16-byte iNES file: mapper 0, no trainer, no PRG, no CHR. -/
def c8File : List Nat :=
  [0x4E, 0x45, 0x53, 0x1A, 0, 0, 0, 0, 0, 0, 0, 0, 0, 0, 0, 0]

/-- A 16-byte NES 2.0 file with zero CHR-ROM size and zero CHR-RAM shift:
the loader accepts it with both CHR vectors empty. -/
def c9File : List Nat :=
  [0x4E, 0x45, 0x53, 0x1A, 0, 0, 0, 0x08, 0, 0, 0, 0, 0, 0, 0, 0]

/-- The mapper the loader yields for `c9File`. -/
def c9Mapper : Mapper :=
  .nrom ⟨⟨[], [], [], []⟩, ⟨ChrType.ram, NametableMirroring.horizontal⟩⟩

/-- A minimal 16-byte iNES file for the CHR-invariant witness. -/
def c9wFile : List Nat :=
  [0x4E, 0x45, 0x53, 0x1A, 0, 0, 0, 0, 0, 0, 0, 0, 0, 0, 0, 0]

/-- The mapper the loader yields for `c9wFile`: 8 KiB CHR RAM, 8 KiB PRG RAM. -/
def c9wMapper : Mapper :=
  .nrom ⟨⟨[], List.replicate 8192 0, [], List.replicate 8192 0⟩,
    ⟨ChrType.ram, NametableMirroring.horizontal⟩⟩

end Nes

/-! ## Helper lemmas -/

theorem toNat_testBit (b : Bool) (j : Nat) :
    b.toNat.testBit j = (b && decide (j = 0)) := by
  cases b <;> cases j <;>
    simp [Nat.testBit_succ, Nat.zero_testBit]

theorem land_shift_mask (x k n : Nat) :
    x &&& ((2 ^ n - 1) <<< k) = ((x >>> k) % 2 ^ n) <<< k := by
  apply Nat.eq_of_testBit_eq
  intro i
  rw [Nat.testBit_land, Nat.testBit_shiftLeft, Nat.testBit_shiftLeft,
    Nat.testBit_mod_two_pow, Nat.testBit_two_pow_sub_one, Nat.testBit_shiftRight]
  by_cases hik : k ≤ i
  · have hki : k + (i - k) = i := by omega
    rw [hki]
    by_cases hn : i - k < n
    · simp [hik, hn, ge_iff_le]
    · simp [hik, hn, ge_iff_le]
  · simp [ge_iff_le, hik]

namespace M68k

theorem read_from_write_long (a : AddressRegister) (r : Registers) (v : Nat) :
    a.read_from (a.write_long_word_to r v) = v % two32 := by
  unfold AddressRegister.read_from AddressRegister.write_long_word_to
  by_cases h : a.val.val = 7
  · by_cases hs : r.supervisor_mode <;> simp [h, hs]
  · simp [h, Function.update_same]

/-- C3: for every 16-bit value and every address register, in either
privilege mode, a word write followed by a read yields the 32-bit sign
extension `(i16)v as i32 as u32`. -/
theorem address_register_word_write_sign_extends (a : AddressRegister)
    (r : Registers) (v : Nat) (hv : v < 65536) :
    a.read_from (a.write_word_to r v) = c3Spec v := by
  unfold AddressRegister.write_word_to
  rw [read_from_write_long]
  unfold i16_as_u32 c3Spec two32
  rw [Nat.mod_eq_of_lt hv]
  by_cases h : v < 32768
  · simp only [h, if_pos]
    omega
  · simp only [h, if_neg, if_false]
    omega

/-- Witness for C3 at `v = 0xBEEF` on A7 in supervisor mode. -/
theorem address_register_word_write_sign_extends_witness :
    (0xBEEF : Nat) < 65536
      ∧ (AddressRegister.mk 7).read_from
          ((AddressRegister.mk 7).write_word_to Registers.new 0xBEEF)
        = c3Spec 0xBEEF :=
  ⟨by norm_num,
    address_register_word_write_sign_extends ⟨7⟩ Registers.new 0xBEEF (by norm_num)⟩

end M68k

namespace M68k

/-- C6: a byte write to a data register replaces only bits 7..0, a word
write only bits 15..0, a long write all 32 bits; the other data registers
are untouched. -/
theorem data_register_write_widths (d : DataRegister) (r : Registers) (v : Nat) :
    (∀ i, i < 8 →
      ((d.write_byte_to r v).data d.val).testBit i = v.testBit i)
    ∧ (∀ i, 8 ≤ i → i < 32 →
      ((d.write_byte_to r v).data d.val).testBit i = (r.data d.val).testBit i)
    ∧ (∀ i, i < 16 →
      ((d.write_word_to r v).data d.val).testBit i = v.testBit i)
    ∧ (∀ i, 16 ≤ i → i < 32 →
      ((d.write_word_to r v).data d.val).testBit i = (r.data d.val).testBit i)
    ∧ (∀ i, i < 32 →
      ((d.write_long_word_to r v).data d.val).testBit i = v.testBit i)
    ∧ (∀ e, e ≠ d.val →
      (d.write_byte_to r v).data e = r.data e
        ∧ (d.write_word_to r v).data e = r.data e
        ∧ (d.write_long_word_to r v).data e = r.data e) := by
  refine ⟨?_, ?_, ?_, ?_, ?_, ?_⟩
  · intro i hi
    unfold DataRegister.write_byte_to
    rw [show (0xFFFFFF00 : Nat) = (2 ^ 24 - 1) <<< 8 by norm_num [Nat.shiftLeft_eq]]
    simp only [Function.update_same, land_shift_mask, Nat.testBit_lor,
      Nat.testBit_shiftLeft, Nat.testBit_mod_two_pow]
    rw [show (256 : Nat) = 2 ^ 8 by norm_num, Nat.testBit_mod_two_pow]
    simp [ge_iff_le, show ¬(8 ≤ i) by omega, hi]
  · intro i h8 h32
    unfold DataRegister.write_byte_to
    rw [show (0xFFFFFF00 : Nat) = (2 ^ 24 - 1) <<< 8 by norm_num [Nat.shiftLeft_eq]]
    simp only [Function.update_same, land_shift_mask, Nat.testBit_lor,
      Nat.testBit_shiftLeft, Nat.testBit_mod_two_pow, Nat.testBit_shiftRight]
    rw [show (256 : Nat) = 2 ^ 8 by norm_num, Nat.testBit_mod_two_pow,
      show 8 + (i - 8) = i by omega]
    simp [ge_iff_le, h8, show ¬(i < 8) by omega, show i - 8 < 24 by omega]
  · intro i hi
    unfold DataRegister.write_word_to
    rw [show (0xFFFF0000 : Nat) = (2 ^ 16 - 1) <<< 16 by norm_num [Nat.shiftLeft_eq]]
    simp only [Function.update_same, land_shift_mask, Nat.testBit_lor,
      Nat.testBit_shiftLeft, Nat.testBit_mod_two_pow]
    rw [show (65536 : Nat) = 2 ^ 16 by norm_num, Nat.testBit_mod_two_pow]
    simp [ge_iff_le, show ¬(16 ≤ i) by omega, hi]
  · intro i h16 h32
    unfold DataRegister.write_word_to
    rw [show (0xFFFF0000 : Nat) = (2 ^ 16 - 1) <<< 16 by norm_num [Nat.shiftLeft_eq]]
    simp only [Function.update_same, land_shift_mask, Nat.testBit_lor,
      Nat.testBit_shiftLeft, Nat.testBit_mod_two_pow, Nat.testBit_shiftRight]
    rw [show (65536 : Nat) = 2 ^ 16 by norm_num, Nat.testBit_mod_two_pow,
      show 16 + (i - 16) = i by omega]
    simp [ge_iff_le, h16, show ¬(i < 16) by omega, show i - 16 < 16 by omega]
  · intro i hi
    unfold DataRegister.write_long_word_to
    rw [show two32 = 2 ^ 32 by norm_num [two32]]
    show (Function.update r.data d.val (v % 2 ^ 32) d.val).testBit i = v.testBit i
    rw [Function.update_same, Nat.testBit_mod_two_pow]
    simp [hi]
  · intro e he
    unfold DataRegister.write_byte_to DataRegister.write_word_to
      DataRegister.write_long_word_to
    simp [Function.update_noteq he]

/-- Witness for C6 at D1, fresh registers, value `0x1234ABCD`: sampled bits
of each width's write, plus preservation of D2. -/
theorem data_register_write_widths_witness :
    (3 : Nat) < 8
    ∧ (((DataRegister.mk 1).write_byte_to Registers.new 0x1234ABCD).data
        1).testBit 3 = (0x1234ABCD : Nat).testBit 3
    ∧ (((DataRegister.mk 1).write_byte_to Registers.new 0x1234ABCD).data
        1).testBit 12 = (Registers.new.data 1).testBit 12
    ∧ (((DataRegister.mk 1).write_word_to Registers.new 0x1234ABCD).data
        1).testBit 12 = (0x1234ABCD : Nat).testBit 12
    ∧ (((DataRegister.mk 1).write_word_to Registers.new 0x1234ABCD).data
        1).testBit 20 = (Registers.new.data 1).testBit 20
    ∧ (((DataRegister.mk 1).write_long_word_to Registers.new 0x1234ABCD).data
        1).testBit 28 = (0x1234ABCD : Nat).testBit 28
    ∧ ((DataRegister.mk 1).write_byte_to Registers.new 0x1234ABCD).data 2
        = Registers.new.data 2 := by
  have h := data_register_write_widths ⟨1⟩ Registers.new 0x1234ABCD
  exact ⟨by norm_num, h.1 3 (by norm_num), h.2.1 12 (by norm_num) (by norm_num),
    h.2.2.1 12 (by norm_num), h.2.2.2.1 20 (by norm_num) (by norm_num),
    h.2.2.2.2.1 28 (by norm_num),
    (h.2.2.2.2.2 2 (by decide)).1⟩

end M68k

theorem land_seven (x : Nat) : x &&& 7 = x % 8 := by
  have h := Nat.and_pow_two_sub_one_eq_mod x 3
  norm_num at h
  exact h

theorem testBit_mod_256 (x i : Nat) :
    (x % 256).testBit i = (decide (i < 8) && x.testBit i) := by
  rw [show (256 : Nat) = 2 ^ 8 by norm_num, Nat.testBit_mod_two_pow]

theorem testBit_mod_8 (x i : Nat) :
    (x % 8).testBit i = (decide (i < 3) && x.testBit i) := by
  rw [show (8 : Nat) = 2 ^ 3 by norm_num, Nat.testBit_mod_two_pow]

namespace M68k

/-- C10: writing any 16-bit value to the status register and reading it back
returns the value masked with `0xA71F`: trace (bit 15), supervisor (bit 13),
the interrupt mask (bits 10..8) and the condition codes (bits 4..0) survive,
all other bits read back as zero. -/
theorem status_register_mask_round_trip (m : M68000) (s : Nat)
    (hs : s < 65536) :
    (m.set_status_register s).status_register = s &&& 0xA71F := by
  unfold M68000.set_status_register M68000.status_register
    Registers.set_status_register Registers.status_register
    ConditionCodes.fromU8 ConditionCodes.toU8
  apply Nat.eq_of_testBit_eq
  intro i
  by_cases h16 : i < 16
  · simp only [Nat.testBit_lor, Nat.testBit_land, Nat.testBit_shiftLeft,
      Nat.testBit_shiftRight, toNat_testBit, land_seven, testBit_mod_256,
      testBit_mod_8]
    interval_cases i <;>
      simp [Nat.testBit_succ, Nat.testBit_zero]
  · have hsb : s.testBit i = false :=
      Nat.testBit_lt_two_pow (by
        calc s < 65536 := hs
        _ = 2 ^ 16 := by norm_num
        _ ≤ 2 ^ i := Nat.pow_le_pow_right (by norm_num) (by omega))
    simp only [Nat.testBit_lor, Nat.testBit_land, Nat.testBit_shiftLeft,
      Nat.testBit_shiftRight, toNat_testBit, land_seven, testBit_mod_256,
      testBit_mod_8, hsb]
    simp [show ¬(i - 8 - 5 = 0) by omega, show ¬(i - 8 - 7 = 0) by omega,
      show ¬(i - 4 = 0) by omega, show ¬(i - 3 = 0) by omega,
      show ¬(i - 2 = 0) by omega, show ¬(i - 1 = 0) by omega,
      show ¬(i = 0) by omega, show ¬(i - 8 < 3) by omega, ge_iff_le]

end M68k

namespace M68k

/-- Witness for C10 at `s = 0xFFFF` on a fresh 68000. -/
theorem status_register_mask_round_trip_witness :
    (0xFFFF : Nat) < 65536
    ∧ (M68000.new.set_status_register 0xFFFF).status_register
        = 0xFFFF &&& 0xA71F :=
  ⟨by norm_num, status_register_mask_round_trip M68000.new 0xFFFF (by norm_num)⟩

theorem decode_undefined_family (r : Registers) (bus : Bus)
    (h : ¬(bus.wordAt r.pc &&& 0xF000 = 0x1000
      ∨ bus.wordAt r.pc &&& 0xF000 = 0x2000
      ∨ bus.wordAt r.pc &&& 0xF000 = 0x3000)) :
    InstructionExecutor.decode_instruction r bus
      = (Instruction.Illegal, { r with pc := wadd r.pc 2 },
          { bus with log := BusAccess.readWord r.pc :: bus.log }) := by
  simp only [InstructionExecutor.decode_instruction,
    InstructionExecutor.fetch_operand, Bus.read_word, if_neg h]

/-- C2 (amended): executing an instruction whose opcode is outside the
implemented MOVE family panics with "illegal or unimplemented instruction";
the failure surfaces to the host and no exception sequence is entered. -/
theorem illegal_instruction_panics (r : Registers) (bus : Bus)
    (h : ¬(bus.wordAt r.pc &&& 0xF000 = 0x1000
      ∨ bus.wordAt r.pc &&& 0xF000 = 0x2000
      ∨ bus.wordAt r.pc &&& 0xF000 = 0x3000)) :
    (InstructionExecutor.decode_instruction r bus).1 = Instruction.Illegal
    ∧ InstructionExecutor.execute r bus
        = .error "illegal or unimplemented instruction" := by
  have hd := decode_undefined_family r bus h
  constructor
  · rw [hd]
  · unfold InstructionExecutor.execute
    rw [hd]
    rfl

/-- Witness for C2's amended claim: opcode `0x0000` at PC 0. -/
theorem illegal_instruction_panics_witness :
    (InstructionExecutor.decode_instruction c2Regs c2Bus).1 = Instruction.Illegal
    ∧ InstructionExecutor.execute c2Regs c2Bus
        = .error "illegal or unimplemented instruction" :=
  illegal_instruction_panics c2Regs c2Bus (by decide)

/-- Counterexample to C2 as stated: on the undefined opcode `0x0000` the
68000 core does not enter the vector-4 exception sequence and continue; it
fails (panics) and the failure surfaces to the host. -/
theorem illegal_instruction_no_exception_sequence :
    InstructionExecutor.execute c2Regs c2Bus
      = .error "illegal or unimplemented instruction"
    ∧ ∀ p : Registers × Bus, InstructionExecutor.execute c2Regs c2Bus ≠ .ok p := by
  constructor
  · rfl
  · intro p hp
    rw [show InstructionExecutor.execute c2Regs c2Bus
        = .error "illegal or unimplemented instruction" from rfl] at hp
    exact Except.noConfusion hp

end M68k

namespace M68k

/-- C4: post-increment reads and writes use the register's original value as
the bus address and leave the register at that value plus the step;
pre-decrement first subtracts the step and uses the decremented value both
as the bus address and as the register's final value; the step is 1/2/4 by
size except that byte operands step A7 by 2. -/
theorem postinc_predec_contract (size : OpSize) (a : AddressRegister)
    (r : Registers) (bus : Bus) (v : SizedValue) (hv : v.sizeOf = size) :
    postincPredecSpec size a r bus v := by
  unfold postincPredecSpec
  refine ⟨?_, ?_, ?_, ?_⟩
  · cases size
    all_goals
      refine ⟨rfl, ?_⟩
      simp only [AddressingMode.read_from, AddressingMode.read_byte_from,
        AddressingMode.read_word_from, AddressingMode.read_long_word_from,
        AddressingMode.read_with, Bus.read_memory, Bus.read_word,
        Bus.read_long_word]
      rw [read_from_write_long]
      simp only [increment_step_for]
      unfold wadd two32
      omega
  · cases size
    all_goals
      refine ⟨rfl, ?_⟩
      simp only [AddressingMode.read_from, AddressingMode.read_byte_from,
        AddressingMode.read_word_from, AddressingMode.read_long_word_from,
        AddressingMode.read_with, Bus.read_memory, Bus.read_word,
        Bus.read_long_word]
      rw [read_from_write_long]
      simp only [increment_step_for]
      unfold wsub two32
      omega
  · cases v
    all_goals
      subst hv
      intro r' bus' h
      simp only [AddressingMode.write_to, AddressingMode.write_byte_to,
        AddressingMode.write_word_to, AddressingMode.write_long_word_to,
        AddressingMode.write_with, Bus.write_memory, Bus.write_word,
        Bus.write_long_word, Bus.setByte, Except.ok.injEq, Prod.mk.injEq] at h
      obtain ⟨h1, h2⟩ := h
      subst h1
      subst h2
      refine ⟨rfl, ?_⟩
      rw [read_from_write_long]
      simp only [increment_step_for, SizedValue.sizeOf]
      unfold wadd two32
      omega
  · cases v
    all_goals
      subst hv
      intro r' bus' h
      simp only [AddressingMode.write_to, AddressingMode.write_byte_to,
        AddressingMode.write_word_to, AddressingMode.write_long_word_to,
        AddressingMode.write_with, Bus.write_memory, Bus.write_word,
        Bus.write_long_word, Bus.setByte, Except.ok.injEq, Prod.mk.injEq] at h
      obtain ⟨h1, h2⟩ := h
      subst h1
      subst h2
      refine ⟨rfl, ?_⟩
      rw [read_from_write_long]
      simp only [increment_step_for, SizedValue.sizeOf]
      unfold wsub two32
      omega

/-- Witness for C4: a byte access through A7 in user mode. -/
theorem postinc_predec_contract_witness :
    (SizedValue.Byte 0x12).sizeOf = OpSize.Byte
    ∧ postincPredecSpec OpSize.Byte ⟨7⟩ c4Regs c4Bus (SizedValue.Byte 0x12) :=
  ⟨rfl, postinc_predec_contract OpSize.Byte ⟨7⟩ c4Regs c4Bus
    (SizedValue.Byte 0x12) rfl⟩

end M68k

namespace M68k

theorem fetch_addressing_mode_spec (mode register : Nat) (size : OpSize)
    (r : Registers) (bus : Bus) (hpc : r.pc < two32) :
    ∀ am r' bus',
      InstructionExecutor.fetch_addressing_mode mode register size r bus
          = (some am, r', bus') →
        decodesFields mode register am
          ∧ r'.pc = (r.pc + 2 * extensionWords size am) % two32 := by
  intro am r' bus' h
  unfold InstructionExecutor.fetch_addressing_mode
    InstructionExecutor.fetch_operand Bus.read_word at h
  dsimp only at h
  rcases hp : parse_index (bus.wordAt r.pc) with ⟨ir, isz⟩
  rw [hp] at h
  have hm8 : mode % 8 < 8 := Nat.mod_lt _ (by norm_num)
  obtain ⟨m, hm⟩ : ∃ m, mode % 8 = m := ⟨_, rfl⟩
  rw [hm] at h hm8
  interval_cases m
  · norm_num [Prod.mk.injEq, Option.some.injEq] at h
    obtain ⟨h1, h2, h3⟩ := h
    subst h1
    subst h2
    refine ⟨?_, ?_⟩
    · simp [decodesFields, hm]
    · simp only [extensionWords]
      simp only [wadd, two32] at hpc ⊢
      try omega
  · norm_num [Prod.mk.injEq, Option.some.injEq] at h
    obtain ⟨h1, h2, h3⟩ := h
    subst h1
    subst h2
    refine ⟨?_, ?_⟩
    · simp [decodesFields, hm]
    · simp only [extensionWords]
      simp only [wadd, two32] at hpc ⊢
      try omega
  · norm_num [Prod.mk.injEq, Option.some.injEq] at h
    obtain ⟨h1, h2, h3⟩ := h
    subst h1
    subst h2
    refine ⟨?_, ?_⟩
    · simp [decodesFields, hm]
    · simp only [extensionWords]
      simp only [wadd, two32] at hpc ⊢
      try omega
  · norm_num [Prod.mk.injEq, Option.some.injEq] at h
    obtain ⟨h1, h2, h3⟩ := h
    subst h1
    subst h2
    refine ⟨?_, ?_⟩
    · simp [decodesFields, hm]
    · simp only [extensionWords]
      simp only [wadd, two32] at hpc ⊢
      try omega
  · norm_num [Prod.mk.injEq, Option.some.injEq] at h
    obtain ⟨h1, h2, h3⟩ := h
    subst h1
    subst h2
    refine ⟨?_, ?_⟩
    · simp [decodesFields, hm]
    · simp only [extensionWords]
      simp only [wadd, two32] at hpc ⊢
      try omega
  · norm_num [Prod.mk.injEq, Option.some.injEq] at h
    obtain ⟨h1, h2, h3⟩ := h
    subst h1
    subst h2
    refine ⟨?_, ?_⟩
    · simp [decodesFields, hm]
    · simp only [extensionWords]
      simp only [wadd, two32] at hpc ⊢
      try omega
  · norm_num [Prod.mk.injEq, Option.some.injEq] at h
    obtain ⟨h1, h2, h3⟩ := h
    subst h1
    subst h2
    refine ⟨?_, ?_⟩
    · simp [decodesFields, hm]
    · simp only [extensionWords]
      simp only [wadd, two32] at hpc ⊢
      try omega
  · norm_num at h
    have hr8 : register % 8 < 8 := Nat.mod_lt _ (by norm_num)
    obtain ⟨n, hn⟩ : ∃ n, register % 8 = n := ⟨_, rfl⟩
    rw [hn] at h hr8
    interval_cases n
    · norm_num [Prod.mk.injEq, Option.some.injEq] at h
      obtain ⟨h1, h2, h3⟩ := h
      subst h1
      subst h2
      refine ⟨?_, ?_⟩
      · simp [decodesFields, hm, hn]
      · simp only [extensionWords]
        simp only [wadd, two32] at hpc ⊢
        try omega
    · norm_num [Prod.mk.injEq, Option.some.injEq] at h
      obtain ⟨h1, h2, h3⟩ := h
      subst h1
      subst h2
      refine ⟨?_, ?_⟩
      · simp [decodesFields, hm, hn]
      · simp only [extensionWords]
        simp only [wadd, two32] at hpc ⊢
        try omega
    · norm_num [Prod.mk.injEq, Option.some.injEq] at h
      obtain ⟨h1, h2, h3⟩ := h
      subst h1
      subst h2
      refine ⟨?_, ?_⟩
      · simp [decodesFields, hm, hn]
      · simp only [extensionWords]
        simp only [wadd, two32] at hpc ⊢
        try omega
    · norm_num [Prod.mk.injEq, Option.some.injEq] at h
      obtain ⟨h1, h2, h3⟩ := h
      subst h1
      subst h2
      refine ⟨?_, ?_⟩
      · simp [decodesFields, hm, hn]
      · simp only [extensionWords]
        simp only [wadd, two32] at hpc ⊢
        try omega
    · cases size
      all_goals
        norm_num [Prod.mk.injEq, Option.some.injEq] at h
        obtain ⟨h1, h2, h3⟩ := h
        subst h1
        subst h2
        refine ⟨?_, ?_⟩
        · simp [decodesFields, hm, hn]
        · simp only [extensionWords]
          simp only [wadd, two32] at hpc ⊢
          try omega
    · simp at h
    · simp at h
    · simp at h

end M68k

namespace M68k

theorem decodesFields_mod (a b : Nat) (am : AddressingMode) :
    decodesFields (a % 8) (b % 8) am ↔ decodesFields a b am := by
  cases am <;> simp only [decodesFields] <;> omega

/-- C1 (amended): a MOVE-family opcode decodes with the size given by its
top nibble; whenever decoding yields a MOVE, the source comes from bits 5..0
as (mode, register), the destination from bits 11..6 as (register, mode),
and PC advances by 2 plus 2 per fetched extension word. -/
theorem move_family_decode (r : Registers) (bus : Bus)
    (hfam : bus.wordAt r.pc &&& 0xF000 = 0x1000
      ∨ bus.wordAt r.pc &&& 0xF000 = 0x2000
      ∨ bus.wordAt r.pc &&& 0xF000 = 0x3000) :
    ∀ s src dst r' bus',
      InstructionExecutor.decode_instruction r bus = (.Move s src dst, r', bus') →
        s = sizeForFamily (bus.wordAt r.pc &&& 0xF000)
        ∧ decodesFields (bus.wordAt r.pc >>> 3) (bus.wordAt r.pc) src
        ∧ decodesFields (bus.wordAt r.pc >>> 6) (bus.wordAt r.pc >>> 9) dst
        ∧ r'.pc = (r.pc + 2
            + 2 * (extensionWords s src + extensionWords s dst)) % two32 := by
  intro s src dst r' bus' h
  unfold InstructionExecutor.decode_instruction InstructionExecutor.fetch_operand
    Bus.read_word InstructionExecutor.fetch_addressing_mode_from_opcode at h
  dsimp only at h
  rw [if_pos hfam] at h
  split at h
  · simp at h
  · rename_i src0 r2 bus2 heq1
    split at h
    · simp at h
    · rename_i dst0 r3 bus3 heq2
      generalize hSZ : (if bus.wordAt r.pc &&& 0xF000 = 0x1000 then OpSize.Byte
        else if bus.wordAt r.pc &&& 0xF000 = 0x3000 then OpSize.Word
        else OpSize.LongWord) = SZ at heq1 heq2 h
      split at h
      · simp at h
      · simp only [Prod.mk.injEq, Instruction.Move.injEq] at h
        obtain ⟨⟨hsz, hsrc0, hdst0⟩, hr3, hbus3⟩ := h
        subst hsz
        subst hsrc0
        subst hdst0
        subst hr3
        have hs := fetch_addressing_mode_spec _ _ _ _ _
          (Nat.mod_lt _ (by norm_num [two32])) _ _ _ heq1
        have hd := fetch_addressing_mode_spec _ _ _ _ _
          (by
            rcases hs with ⟨-, hpc2⟩
            rw [hpc2]
            exact Nat.mod_lt _ (by norm_num [two32])) _ _ _ heq2
        rcases hs with ⟨hfs, hpc2⟩
        rcases hd with ⟨hfd, hpc3⟩
        refine ⟨by unfold sizeForFamily; exact hSZ.symm,
          (decodesFields_mod _ _ _).mp hfs,
          (decodesFields_mod _ _ _).mp hfd, ?_⟩
        rw [hpc3, hpc2]
        dsimp only
        simp only [wadd, two32]
        omega

end M68k

namespace M68k

/-- Witness for C1: opcode `0b0011_111_000_001_011` at PC `0x1234` decodes
to a word-size MOVE with source A3 address-direct and destination D7
data-direct, advancing PC to `0x1236`. -/
theorem move_family_decode_witness :
    (InstructionExecutor.decode_instruction c1Regs c1Bus).1
        = Instruction.Move OpSize.Word
            (AddressingMode.AddressDirect ⟨3⟩) (AddressingMode.DataDirect ⟨7⟩)
    ∧ (InstructionExecutor.decode_instruction c1Regs c1Bus).2.1.pc = 0x1236
    ∧ (OpSize.Word = sizeForFamily (c1Bus.wordAt c1Regs.pc &&& 0xF000)
      ∧ decodesFields (c1Bus.wordAt c1Regs.pc >>> 3) (c1Bus.wordAt c1Regs.pc)
          (AddressingMode.AddressDirect ⟨3⟩)
      ∧ decodesFields (c1Bus.wordAt c1Regs.pc >>> 6)
          (c1Bus.wordAt c1Regs.pc >>> 9) (AddressingMode.DataDirect ⟨7⟩)
      ∧ (InstructionExecutor.decode_instruction c1Regs c1Bus).2.1.pc
          = (c1Regs.pc + 2
            + 2 * (extensionWords OpSize.Word (AddressingMode.AddressDirect ⟨3⟩)
              + extensionWords OpSize.Word (AddressingMode.DataDirect ⟨7⟩)))
            % two32) := by
  refine ⟨by decide, by decide, ?_⟩
  exact move_family_decode c1Regs c1Bus (by decide) OpSize.Word
    (AddressingMode.AddressDirect ⟨3⟩) (AddressingMode.DataDirect ⟨7⟩)
    (InstructionExecutor.decode_instruction c1Regs c1Bus).2.1
    (InstructionExecutor.decode_instruction c1Regs c1Bus).2.2 rfl

/-- Counterexample to C1 as stated: opcode `0x1040` has top nibble `0x1`,
but decodes to `Illegal` (address-direct destination with byte size), not to
the byte-size MOVE built from its source and destination fields. -/
theorem move_family_decode_cex :
    (InstructionExecutor.decode_instruction c1IllRegs c1IllBus).1
        = Instruction.Illegal
    ∧ Instruction.Illegal ≠ Instruction.Move OpSize.Byte
        (AddressingMode.DataDirect ⟨0⟩) (AddressingMode.AddressDirect ⟨0⟩) :=
  ⟨by decide, by decide⟩

/-- C5: a MOVE-family opcode whose destination fields denote a non-writable
mode (PC-relative displacement, PC-relative indexed, immediate), or
address-direct with byte operand size, decodes to `Illegal`. -/
theorem move_nonwritable_dest_illegal (r : Registers) (bus : Bus)
    (hfam : bus.wordAt r.pc &&& 0xF000 = 0x1000
      ∨ bus.wordAt r.pc &&& 0xF000 = 0x2000
      ∨ bus.wordAt r.pc &&& 0xF000 = 0x3000)
    (hdest : ((bus.wordAt r.pc >>> 6) % 8 = 7
        ∧ ((bus.wordAt r.pc >>> 9) % 8 = 2 ∨ (bus.wordAt r.pc >>> 9) % 8 = 3
          ∨ (bus.wordAt r.pc >>> 9) % 8 = 4))
      ∨ ((bus.wordAt r.pc >>> 6) % 8 = 1
        ∧ sizeForFamily (bus.wordAt r.pc &&& 0xF000) = OpSize.Byte)) :
    (InstructionExecutor.decode_instruction r bus).1 = Instruction.Illegal := by
  unfold InstructionExecutor.decode_instruction InstructionExecutor.fetch_operand
    Bus.read_word InstructionExecutor.fetch_addressing_mode_from_opcode
  dsimp only
  rw [if_pos hfam]
  split
  · rfl
  · rename_i src0 r2 bus2 heq1
    rcases hdest with ⟨h7, hreg⟩ | ⟨h1, hByte⟩
    · rw [h7]
      rcases hreg with h2 | h2 | h2 <;> rw [h2] <;>
        rcases hfam with hf | hf | hf <;>
          simp [InstructionExecutor.fetch_addressing_mode,
            InstructionExecutor.fetch_operand, Bus.read_word,
            AddressingMode.is_writable, hf]
    · rw [h1]
      unfold sizeForFamily at hByte
      rcases hfam with hf | hf | hf <;>
        (simp [hf] at hByte ⊢
         try simp [InstructionExecutor.fetch_addressing_mode,
           AddressingMode.is_writable, AddressingMode.is_address_direct, hByte])

/-- Witness for C5: opcode `0x39C0` (word MOVE whose destination fields are
mode 7, register 4: immediate) decodes to `Illegal`. -/
theorem move_nonwritable_dest_illegal_witness :
    (InstructionExecutor.decode_instruction c5Regs c5Bus).1
      = Instruction.Illegal :=
  move_nonwritable_dest_illegal c5Regs c5Bus (by decide)
    (Or.inl ⟨by decide, Or.inr (Or.inr (by decide))⟩)

end M68k

namespace Nes

/-- C7: a NES 2.0 file declaring both volatile and non-volatile PRG RAM is
rejected with `MultiplePrgRamTypes`; otherwise the allocated PRG-RAM size is
`64 << max(shifts)` (0 when both shifts are zero) for NES 2.0 and 8192 for
plain iNES. -/
theorem prg_ram_sizing (file : List Nat) (hreads : inesReadsOk file) :
    (fileFormatOf file = .nes2Point0
      → headerByte file 10 &&& 0x0F > 0
      → headerByte file 10 >>> 4 > 0
      → from_ines_file file = .error .multiplePrgRamTypes)
    ∧ (∀ m, from_ines_file file = .ok m
        → (Mapper.cartridge m).prg_ram.length = prgRamExpected file) := by
  obtain ⟨h16, hlen⟩ := hreads
  have hH : readExact file 0 16
      = some (((file.drop 0).take 16).map (· % 256)) := by
    unfold readExact
    rw [if_pos (by omega)]
  have hP : readExact file (prgRomStartOf file) (prgRomSizeOf file)
      = some (((file.drop (prgRomStartOf file)).take (prgRomSizeOf file)).map
          (· % 256)) := by
    unfold readExact
    rw [if_pos (by omega)]
  have hC : readExact file (prgRomStartOf file + prgRomSizeOf file)
        (chrRomSizeOf file)
      = some (((file.drop (prgRomStartOf file + prgRomSizeOf file)).take
          (chrRomSizeOf file)).map (· % 256)) := by
    unfold readExact
    rw [if_pos (by omega)]
  constructor
  · intro hfmt hv hnv
    unfold from_ines_file
    dsimp only
    rw [hH]
    dsimp only
    rw [hP]
    dsimp only
    rw [hC]
    dsimp only
    rw [hfmt]
    dsimp only
    rw [if_pos ⟨hv, hnv⟩]
  · intro m hok
    unfold from_ines_file at hok
    dsimp only at hok
    rw [hH] at hok
    dsimp only at hok
    rw [hP] at hok
    dsimp only at hok
    rw [hC] at hok
    dsimp only at hok
    unfold prgRamExpected
    rcases hfm : fileFormatOf file with _ | _
    · rw [hfm] at hok
      dsimp only at hok ⊢
      generalize hpr : List.replicate 8192 (0 : Nat) = PR at hok
      repeat' split at hok
      all_goals
        first
        | (obtain rfl := Except.ok.inj hok
           dsimp only [Mapper.cartridge]
           rw [← hpr]
           exact List.length_replicate _ _)
        | exact Except.noConfusion hok
    · rw [hfm] at hok
      dsimp only at hok ⊢
      split at hok
      · exact Except.noConfusion hok
      · rename_i sz heq
        split at heq
        · exact Except.noConfusion heq
        · obtain rfl := Except.ok.inj heq
          generalize hpr : List.replicate
              (if (headerByte file 10 &&& 0x0F) ⊔ (headerByte file 10 >>> 4) > 0
                then 64 <<< ((headerByte file 10 &&& 0x0F) ⊔ (headerByte file 10 >>> 4))
                else 0) (0 : Nat) = PR at hok
          repeat' split at hok
          all_goals
            first
            | (obtain rfl := Except.ok.inj hok
               dsimp only [Mapper.cartridge]
               rw [← hpr]
               exact List.length_replicate _ _)
            | exact Except.noConfusion hok

end Nes

namespace Nes

/-- Witness for C7: a NES 2.0 file with header byte 10 = `0x11` is rejected
with `MultiplePrgRamTypes`. -/
theorem prg_ram_sizing_witness :
    from_ines_file c7File
      = Except.error CartridgeFileError.multiplePrgRamTypes :=
  (prg_ram_sizing c7File (by decide)).1 (by decide) (by decide) (by decide)

/-- C8: the loader computes the mapper number as
`(byte7 & 0xF0) | (byte6 >> 4)` and dispatches 0 to NROM, 1 to MMC1,
2 to UxROM, 3 to CNROM, 4 to MMC3, 7 to AxROM; every other number fails
with `UnsupportedMapper` carrying that number. -/
theorem mapper_dispatch (file : List Nat) (hreads : inesReadsOk file)
    (hram : fileFormatOf file = .nes2Point0
      → ¬(headerByte file 10 &&& 0x0F > 0 ∧ headerByte file 10 >>> 4 > 0)) :
    mapperNumberOf file
        = (headerByte file 7 &&& 0xF0) ||| (headerByte file 6 >>> 4)
    ∧ (mapperNumberOf file = 0 → ∃ x, from_ines_file file = .ok (.nrom x))
    ∧ (mapperNumberOf file = 1 → ∃ x, from_ines_file file = .ok (.mmc1 x))
    ∧ (mapperNumberOf file = 2 → ∃ x, from_ines_file file = .ok (.uxrom x))
    ∧ (mapperNumberOf file = 3 → ∃ x, from_ines_file file = .ok (.cnrom x))
    ∧ (mapperNumberOf file = 4 → ∃ x, from_ines_file file = .ok (.mmc3 x))
    ∧ (mapperNumberOf file = 7 → ∃ x, from_ines_file file = .ok (.axrom x))
    ∧ (mapperNumberOf file ≠ 0 → mapperNumberOf file ≠ 1
      → mapperNumberOf file ≠ 2 → mapperNumberOf file ≠ 3
      → mapperNumberOf file ≠ 4 → mapperNumberOf file ≠ 7
      → from_ines_file file
          = .error (.unsupportedMapper (mapperNumberOf file))) := by
  obtain ⟨h16, hlen⟩ := hreads
  have hH : readExact file 0 16
      = some (((file.drop 0).take 16).map (· % 256)) := by
    unfold readExact
    rw [if_pos (by omega)]
  have hP : readExact file (prgRomStartOf file) (prgRomSizeOf file)
      = some (((file.drop (prgRomStartOf file)).take (prgRomSizeOf file)).map
          (· % 256)) := by
    unfold readExact
    rw [if_pos (by omega)]
  have hC : readExact file (prgRomStartOf file + prgRomSizeOf file)
        (chrRomSizeOf file)
      = some (((file.drop (prgRomStartOf file + prgRomSizeOf file)).take
          (chrRomSizeOf file)).map (· % 256)) := by
    unfold readExact
    rw [if_pos (by omega)]
  refine ⟨?_, ?_, ?_, ?_, ?_, ?_, ?_, ?_⟩
  · unfold mapperNumberOf
    have h2 : (headerByte file 6 &&& 0xF0) >>> 4 = headerByte file 6 >>> 4 := by
      have hx : headerByte file 6 < 256 := Nat.mod_lt _ (by norm_num)
      rw [show (0xF0 : Nat) = (2 ^ 4 - 1) <<< 4 by norm_num [Nat.shiftLeft_eq],
        land_shift_mask, Nat.shiftLeft_eq, Nat.shiftRight_eq_div_pow,
        Nat.shiftRight_eq_div_pow]
      have e : (2 : Nat) ^ 4 = 16 := by norm_num
      rw [e]
      omega
    rw [h2]
  · intro hmn
    unfold from_ines_file
    dsimp only
    rw [hH]
    dsimp only
    rw [hP]
    dsimp only
    rw [hC]
    dsimp only
    rcases hfm : fileFormatOf file with _ | _ <;> dsimp only
    · rw [if_pos hmn]
      exact ⟨_, rfl⟩
    · rw [if_neg (hram hfm)]
      dsimp only
      rw [if_pos hmn]
      exact ⟨_, rfl⟩
  · intro hmn
    unfold from_ines_file
    dsimp only
    rw [hH]
    dsimp only
    rw [hP]
    dsimp only
    rw [hC]
    dsimp only
    rcases hfm : fileFormatOf file with _ | _ <;> dsimp only
    · rw [if_neg (by omega), if_pos hmn]
      exact ⟨_, rfl⟩
    · rw [if_neg (hram hfm)]
      dsimp only
      rw [if_neg (by omega), if_pos hmn]
      exact ⟨_, rfl⟩
  · intro hmn
    unfold from_ines_file
    dsimp only
    rw [hH]
    dsimp only
    rw [hP]
    dsimp only
    rw [hC]
    dsimp only
    rcases hfm : fileFormatOf file with _ | _ <;> dsimp only
    · rw [if_neg (by omega), if_neg (by omega), if_pos hmn]
      exact ⟨_, rfl⟩
    · rw [if_neg (hram hfm)]
      dsimp only
      rw [if_neg (by omega), if_neg (by omega), if_pos hmn]
      exact ⟨_, rfl⟩
  · intro hmn
    unfold from_ines_file
    dsimp only
    rw [hH]
    dsimp only
    rw [hP]
    dsimp only
    rw [hC]
    dsimp only
    rcases hfm : fileFormatOf file with _ | _ <;> dsimp only
    · rw [if_neg (by omega), if_neg (by omega), if_neg (by omega), if_pos hmn]
      exact ⟨_, rfl⟩
    · rw [if_neg (hram hfm)]
      dsimp only
      rw [if_neg (by omega), if_neg (by omega), if_neg (by omega), if_pos hmn]
      exact ⟨_, rfl⟩
  · intro hmn
    unfold from_ines_file
    dsimp only
    rw [hH]
    dsimp only
    rw [hP]
    dsimp only
    rw [hC]
    dsimp only
    rcases hfm : fileFormatOf file with _ | _ <;> dsimp only
    · rw [if_neg (by omega), if_neg (by omega), if_neg (by omega), if_neg (by omega), if_pos hmn]
      exact ⟨_, rfl⟩
    · rw [if_neg (hram hfm)]
      dsimp only
      rw [if_neg (by omega), if_neg (by omega), if_neg (by omega), if_neg (by omega), if_pos hmn]
      exact ⟨_, rfl⟩
  · intro hmn
    unfold from_ines_file
    dsimp only
    rw [hH]
    dsimp only
    rw [hP]
    dsimp only
    rw [hC]
    dsimp only
    rcases hfm : fileFormatOf file with _ | _ <;> dsimp only
    · rw [if_neg (by omega), if_neg (by omega), if_neg (by omega), if_neg (by omega), if_neg (by omega), if_pos hmn]
      exact ⟨_, rfl⟩
    · rw [if_neg (hram hfm)]
      dsimp only
      rw [if_neg (by omega), if_neg (by omega), if_neg (by omega), if_neg (by omega), if_neg (by omega), if_pos hmn]
      exact ⟨_, rfl⟩
  · intro h0 h1 h2 h3 h4 h7
    unfold from_ines_file
    dsimp only
    rw [hH]
    dsimp only
    rw [hP]
    dsimp only
    rw [hC]
    dsimp only
    rcases hfm : fileFormatOf file with _ | _ <;> dsimp only
    · rw [if_neg h0, if_neg h1, if_neg h2, if_neg h3, if_neg h4, if_neg h7]
    · rw [if_neg (hram hfm)]
      dsimp only
      rw [if_neg h0, if_neg h1, if_neg h2, if_neg h3, if_neg h4, if_neg h7]

/-- Witness for C8: the minimal iNES file computes mapper number 0 by the
documented formula. -/
theorem mapper_dispatch_witness :
    mapperNumberOf c8File
      = (headerByte c8File 7 &&& 0xF0) ||| (headerByte c8File 6 >>> 4) :=
  (mapper_dispatch c8File (by decide) (by decide)).1

end Nes

namespace Nes

theorem from_ines_ok_chr (file : List Nat) (m : Mapper)
    (hok : from_ines_file file = .ok m) :
    (Mapper.cartridge m).chr_rom.length = chrRomSizeOf file
    ∧ (Mapper.cartridge m).chr_ram.length
        = (if chrRomSizeOf file = 0 then chrRamExpected file else 0) := by
  unfold from_ines_file at hok
  dsimp only at hok
  rcases hH : readExact file 0 16 with _ | hdr
  · rw [hH] at hok
    exact Except.noConfusion hok
  rw [hH] at hok
  dsimp only at hok
  rcases hP : readExact file (prgRomStartOf file) (prgRomSizeOf file) with _ | prg
  · rw [hP] at hok
    exact Except.noConfusion hok
  rw [hP] at hok
  dsimp only at hok
  rcases hC : readExact file (prgRomStartOf file + prgRomSizeOf file)
      (chrRomSizeOf file) with _ | chr
  · rw [hC] at hok
    exact Except.noConfusion hok
  have hchrlen : chr.length = chrRomSizeOf file := by
    unfold readExact at hC
    split at hC
    · obtain rfl := Option.some.inj hC
      simp only [List.length_map, List.length_take, List.length_drop]
      omega
    · exact Option.noConfusion hC
  rw [hC] at hok
  dsimp only at hok
  by_cases hz : chrRomSizeOf file = 0
  · rw [if_pos hz] at hok ⊢
    rcases hfm : fileFormatOf file with _ | _
    · rw [hfm] at hok
      unfold chrRamExpected
      rw [hfm]
      dsimp only at hok ⊢
      generalize hcr : List.replicate 8192 (0 : Nat) = CR at hok
      repeat' split at hok
      all_goals
        first
        | (obtain rfl := Except.ok.inj hok
           dsimp only [Mapper.cartridge]
           refine ⟨hchrlen, ?_⟩
           rw [← hcr, List.length_replicate])
        | exact Except.noConfusion hok
    · rw [hfm] at hok
      unfold chrRamExpected
      rw [hfm]
      dsimp only at hok ⊢
      generalize hcr : List.replicate
          (if headerByte file 11 &&& 0x0F > 0
            then 64 <<< (headerByte file 11 &&& 0x0F) else 0) (0 : Nat)
          = CR at hok
      repeat' split at hok
      all_goals
        first
        | (obtain rfl := Except.ok.inj hok
           dsimp only [Mapper.cartridge]
           refine ⟨hchrlen, ?_⟩
           rw [← hcr, List.length_replicate])
        | exact Except.noConfusion hok
  · rw [if_neg hz] at hok ⊢
    rcases hfm : fileFormatOf file with _ | _
    all_goals
      rw [hfm] at hok
      dsimp only at hok
      generalize hcr : List.replicate (0 : Nat) (0 : Nat) = CR at hok
      repeat' split at hok
      all_goals
        first
        | (obtain rfl := Except.ok.inj hok
           dsimp only [Mapper.cartridge]
           refine ⟨hchrlen, ?_⟩
           rw [← hcr, List.length_replicate])
        | exact Except.noConfusion hok

end Nes

namespace Nes

/-- C9 (amended): at most one of CHR-ROM and CHR-RAM is non-empty: when the
header's CHR-ROM size is positive, CHR-ROM has that length and CHR-RAM is
empty; when it is zero, CHR-ROM is empty and CHR-RAM has the computed
CHR-RAM size, which is 8192 for iNES but may be zero for a NES 2.0 file
whose CHR-RAM shift is zero. -/
theorem chr_memory_at_most_one (file : List Nat) (m : Mapper)
    (hok : from_ines_file file = .ok m) :
    ¬((Mapper.cartridge m).chr_rom ≠ [] ∧ (Mapper.cartridge m).chr_ram ≠ [])
    ∧ (0 < chrRomSizeOf file →
        (Mapper.cartridge m).chr_rom.length = chrRomSizeOf file
          ∧ (Mapper.cartridge m).chr_ram = [])
    ∧ (chrRomSizeOf file = 0 →
        (Mapper.cartridge m).chr_rom = []
          ∧ (Mapper.cartridge m).chr_ram.length = chrRamExpected file) := by
  obtain ⟨h1, h2⟩ := from_ines_ok_chr file m hok
  by_cases hz : chrRomSizeOf file = 0
  · rw [if_pos hz] at h2
    have hrom : (Mapper.cartridge m).chr_rom = [] :=
      List.eq_nil_of_length_eq_zero (by rw [h1]; exact hz)
    refine ⟨?_, ?_, fun _ => ⟨hrom, h2⟩⟩
    · rintro ⟨hne, -⟩
      exact hne hrom
    · intro hpos
      exact absurd hz (by omega)
  · rw [if_neg hz] at h2
    have hram : (Mapper.cartridge m).chr_ram = [] :=
      List.eq_nil_of_length_eq_zero h2
    refine ⟨?_, fun _ => ⟨h1, hram⟩, ?_⟩
    · rintro ⟨-, hne⟩
      exact hne hram
    · intro h0
      exact absurd h0 hz

/-- Witness for C9's amended claim on a minimal iNES file (CHR-ROM size 0,
8 KiB CHR RAM). -/
theorem chr_memory_at_most_one_witness :
    ¬((Mapper.cartridge c9wMapper).chr_rom ≠ []
        ∧ (Mapper.cartridge c9wMapper).chr_ram ≠ [])
    ∧ (0 < chrRomSizeOf c9wFile →
        (Mapper.cartridge c9wMapper).chr_rom.length = chrRomSizeOf c9wFile
          ∧ (Mapper.cartridge c9wMapper).chr_ram = [])
    ∧ (chrRomSizeOf c9wFile = 0 →
        (Mapper.cartridge c9wMapper).chr_rom = []
          ∧ (Mapper.cartridge c9wMapper).chr_ram.length
              = chrRamExpected c9wFile) :=
  chr_memory_at_most_one c9wFile c9wMapper rfl

/-- Counterexample to C9 as stated: the loader accepts a NES 2.0 file with
CHR-ROM size 0 and CHR-RAM shift 0, yielding a cartridge in which both
CHR-ROM and CHR-RAM are empty — neither is non-empty. -/
theorem chr_memory_exactly_one_cex :
    from_ines_file c9File = Except.ok c9Mapper
    ∧ (Mapper.cartridge c9Mapper).chr_rom = []
    ∧ (Mapper.cartridge c9Mapper).chr_ram = [] :=
  ⟨rfl, rfl, rfl⟩

end Nes
